import Mathlib

/-!
Shallow embedding of the sq-bigquery buffered write queue.

Sources embedded here:
* `src/lib/bq-buffer-queue.js` — `flush`, `_processFlushIteratorWithItemPromises`,
  `_processFlushIteratorWithoutItemPromises` (the current revision, first document
  in that file);
* `src/error.js` — `BigQueryError.parseError`;
* `src/table.js` (revision with `bufferItemPromises`) — `insert`, `getRawRow`;
* `src/helper.js` — `BigQueryHelper.getInstance` / `createInstance` / `clearInstance`.

The sq-toolkit base class `BufferQueue` (constructor defaults, `add`, `addMany`,
`notify`, the flush-interval timer) and its `PendingResult` primitive are
dependencies of this repository that are not under `src/`; the definitions that
stand for them are marked `Modelled from the spec:` below.
-/

namespace SqBigQuery

/-- Exception value as built by `new Exception(code, message)` (sq-toolkit). -/
structure Exc where
  code : String
  message : String
  deriving Repr, DecidableEq

/-- One `{reason, message}` element of a row-level error list in a remote
response or remote error. -/
structure RowError where
  reason : String
  message : String
  deriving Repr, DecidableEq

/-- One `{index, errors}` entry of `response.insertErrors`. -/
structure InsertErrorEntry where
  index : Nat
  errors : List RowError
  deriving Repr, DecidableEq

/-- Response fulfilled by the injected flush function (`iterator`). An absent
`insertErrors` field behaves exactly like an empty list in
`_processFlushIteratorWithItemPromises` (both skip the forEach), so it is
embedded as the empty list. -/
structure InsertResponse where
  insertErrors : List InsertErrorEntry
  deriving Repr, DecidableEq

/-- Error a tracked PendingResult can be rejected with in
`_processFlushIteratorWithItemPromises`: either the `Exception` constructed in
the per-item loop, or the raw error `err` the iterator promise rejected with
(type parameter `ω`). -/
inductive FlushErr (ω : Type) where
  | exc (e : Exc)
  | outer (e : ω)
  deriving Repr, DecidableEq

/-- Modelled from the spec: state of a sq-toolkit `PendingResult`
(§4.2: `pending → fulfilled` or `pending → rejected`, both terminal).
`forceResolve()` is always called with no argument in this codebase, so the
fulfilled state stores no value. -/
inductive PrState (ε : Type) where
  | pending
  | fulfilled
  | rejected (e : ε)
  deriving Repr, DecidableEq

/-- A tracked pending result together with the `__fulfilled` marker that
`bq-buffer-queue.js` writes onto the object before completing it. The state
transitions are modelled from the spec (§4.2); the `fulfilledFlag` field is the
`__fulfilled` property from `src/lib/bq-buffer-queue.js`. -/
structure PendingResult (ε : Type) where
  state : PrState ε
  fulfilledFlag : Bool
  deriving Repr, DecidableEq

/-- Modelled from the spec: `forceResolve(value)` transitions to `fulfilled` if
still `pending`; no-op if already terminal (§4.2). -/
def forceResolve {ε : Type} (p : PendingResult ε) : PendingResult ε :=
  match p.state with
  | PrState.pending => { p with state := PrState.fulfilled }
  | _ => p

/-- Modelled from the spec: `forceReject(error)` transitions to `rejected` if
still `pending`; no-op if already terminal (§4.2). -/
def forceReject {ε : Type} (e : ε) (p : PendingResult ε) : PendingResult ε :=
  match p.state with
  | PrState.pending => { p with state := PrState.rejected e }
  | _ => p

/-- A pending result is terminal when it is no longer pending. -/
def isTerminal {ε : Type} (p : PendingResult ε) : Bool :=
  match p.state with
  | PrState.pending => false
  | _ => true

/-- A completion request: which of the two external completion calls is made. -/
inductive Completion (ε : Type) where
  | resolve
  | reject (e : ε)
  deriving Repr, DecidableEq

/-- Apply one completion call to a pending result. -/
def applyCompletion {ε : Type} : Completion ε → PendingResult ε → PendingResult ε
  | Completion.resolve, p => forceResolve p
  | Completion.reject e, p => forceReject e p

/-- Observable side events of the queue: logger notifications and the
base-class `notify()` call. -/
inductive QueueEvt where
  | loggedFlushError
  | loggedMultipleErrors (errs : List RowError)
  | timerCleared
  | notified
  deriving Repr, DecidableEq

/-- Error-code constant `Error.BQ_INSERT_ERROR`. The constants file
`lib/constants/error` is not under src/; its keys are taken from the require
sites (`bq-buffer-queue.js`, `table.js`) and, as in the sibling constants files
under src/, each constant's value is its key name. -/
def BQ_INSERT_ERROR : String := "BQ_INSERT_ERROR"

/-- Error-code constant `Error.ERROR_ADD_MANY_NOT_SUPPORTED` (same provenance
as `BQ_INSERT_ERROR`; the key is also asserted by `test/table-test.js`). -/
def ERROR_ADD_MANY_NOT_SUPPORTED : String := "ERROR_ADD_MANY_NOT_SUPPORTED"

/-- Message of the `Exception` built in the per-item loop of
`_processFlushIteratorWithItemPromises` (src/lib/bq-buffer-queue.js line 80):
first reason/message pair when `errorArr` is non-empty, otherwise the
`JSON.stringify` fallback (stringify of the reachable empty array is `[]`). -/
def insertErrMessage (errorArr : List RowError) : String :=
  match errorArr with
  | e0 :: _ => e0.reason ++ ": " ++ e0.message
  | [] => "Error inserting into bigQuery: []"

/-- The `errors` object built by the forEach at lines 67-72 of
`src/lib/bq-buffer-queue.js`: `errors[error.index] = error.errors`, later
writes overwriting earlier ones. The `length > 0` guard in the source is
redundant (a forEach over an empty list writes nothing) and is dropped. -/
def buildErrorsMap (l : List InsertErrorEntry) : Nat → Option (List RowError) :=
  l.foldl (fun m e => fun i => if i = e.index then some e.errors else m i)
    (fun _ => none)

/-- Body of one iteration of the reconciliation loop (lines 73-85 of
`src/lib/bq-buffer-queue.js`) for the pair at ordinal index `i`: on a reported
error, log when more than one reason/message pair was returned, set
`__fulfilled` and `forceReject` the constructed `Exception`; otherwise set
`__fulfilled` and `forceResolve`. -/
def reconcileOne {ω : Type} (m : Nat → Option (List RowError)) (i : Nat)
    (pr : PendingResult (FlushErr ω)) : PendingResult (FlushErr ω) × List QueueEvt :=
  match m i with
  | some errorArr =>
      let logs := if errorArr.length > 1 then [QueueEvt.loggedMultipleErrors errorArr] else []
      let pr1 : PendingResult (FlushErr ω) := { pr with fulfilledFlag := true }
      (forceReject (FlushErr.exc ⟨BQ_INSERT_ERROR, insertErrMessage errorArr⟩) pr1, logs)
  | none =>
      let pr1 : PendingResult (FlushErr ω) := { pr with fulfilledFlag := true }
      (forceResolve pr1, [])

/-- The reconciliation loop of the fulfilled branch, starting at ordinal
index `i`. -/
def reconcileLoop {α ω : Type} (m : Nat → Option (List RowError)) (i : Nat) :
    List (α × PendingResult (FlushErr ω)) →
      List (α × PendingResult (FlushErr ω)) × List QueueEvt
  | [] => ([], [])
  | (a, pr) :: rest =>
      let hd := reconcileOne m i pr
      let tl := reconcileLoop m (i + 1) rest
      ((a, hd.1) :: tl.1, hd.2 ++ tl.2)

/-- The reconciliation loop interrupted after `k` iterations (the fulfilled
branch can throw mid-loop — `this.logger.notify` on a null logger — in which
case the catch branch runs over the partially processed pairs): the first `k`
pairs are reconciled, the rest are left untouched. -/
def reconcileUpTo {α ω : Type} (m : Nat → Option (List RowError)) (i : Nat) :
    Nat → List (α × PendingResult (FlushErr ω)) →
      List (α × PendingResult (FlushErr ω))
  | 0, ps => ps
  | _ + 1, [] => []
  | k + 1, (a, pr) :: rest =>
      (a, (reconcileOne m i pr).1) :: reconcileUpTo m (i + 1) k rest

/-- The catch branch (lines 87-93 of `src/lib/bq-buffer-queue.js`): every pair
whose `__fulfilled` marker is not `true` is `forceReject`ed with the error the
promise rejected with. -/
def rejectNotFulfilled {α ω : Type} (e : FlushErr ω)
    (pairs : List (α × PendingResult (FlushErr ω))) :
    List (α × PendingResult (FlushErr ω)) :=
  pairs.map fun p =>
    if p.2.fulfilledFlag = true then p else (p.1, forceReject e p.2)

/-- Settlement of `_processFlushIteratorWithItemPromises` on an already-settled
iterator promise (`outcome`), for an execution in which the fulfilled branch
runs to completion (the configured logger is present, so the branch does not
throw): fulfilled promise → reconciliation loop; rejected promise → reject all
pairs not marked `__fulfilled`. -/
def processFlushIteratorWithItemPromises {α ω : Type}
    (outcome : Except ω InsertResponse)
    (pairs : List (α × PendingResult (FlushErr ω))) :
    List (α × PendingResult (FlushErr ω)) × List QueueEvt :=
  match outcome with
  | Except.ok resp => reconcileLoop (buildErrorsMap resp.insertErrors) 0 pairs
  | Except.error e => (rejectNotFulfilled (FlushErr.outer e) pairs, [])

/-- Settlement of `_processFlushIteratorWithoutItemPromises`
(lines 52-62 of `src/lib/bq-buffer-queue.js`) on an already-settled iterator
promise. The catch handler logs through the injected logger when one is
configured and returns nothing (the chained promise fulfills with no value);
the finally handler always runs `this.notify()`. The first component is the
settlement of the returned promise; the second lists the emitted side events
in order. -/
def processFlushIteratorWithoutItemPromises {ω ρ : Type} (hasLogger : Bool)
    (outcome : Except ω ρ) : Except ω (Option ρ) × List QueueEvt :=
  let caught : Except ω (Option ρ) × List QueueEvt :=
    match outcome with
    | Except.ok v => (Except.ok (some v), [])
    | Except.error _ =>
        (Except.ok none, if hasLogger then [QueueEvt.loggedFlushError] else [])
  (caught.1, caught.2 ++ [QueueEvt.notified])

/-! The `flush` entry point (`src/lib/bq-buffer-queue.js` lines 28-50) and the
surrounding queue machine. The buffer, the flush-interval timer and the
enqueue operations live in the sq-toolkit base class, which is not under
src/; those parts are modelled from the spec (§3, §4.3). -/

/-- Extraction step `this.queue.splice(0, this.maxItems)` of `flush`. The
`maxItems` value of an unconfigured queue is defaulted inside the sq-toolkit
base constructor, which is not under src/. Modelled from the spec for the
unset case: "takes up to maxItems oldest entries (or all entries if maxItems
is unset) out of the buffer" (§4.3). Returns (extracted batch, remaining
buffer). -/
def spliceBatch {β : Type} (maxItems : Option Nat) (q : List β) : List β × List β :=
  match maxItems with
  | some k => (q.take k, q.drop k)
  | none => (q, [])

/-- The argument handed to the injected flush function: payload components only
when `itemPromises` is on, the raw pairs otherwise (lines 33-42 of
`src/lib/bq-buffer-queue.js`). -/
inductive BatchItems (α ε : Type) where
  | payloads (l : List α)
  | rawPairs (l : List (α × PendingResult ε))
  deriving Repr, DecidableEq

/-- Item selection of `flush`: `items[i] = pairs[i][0]` when
`this.itemPromises === true`, else `items = pairs`. -/
def flushItems {α ε : Type} (itemPromises : Bool)
    (pairs : List (α × PendingResult ε)) : BatchItems α ε :=
  if itemPromises = true then BatchItems.payloads (pairs.map Prod.fst)
  else BatchItems.rawPairs pairs

/-- Configuration of a buffer queue (constructor options that matter here). -/
structure QueueCfg where
  maxItems : Option Nat
  maxTime : Option Nat
  itemPromises : Bool
  deriving Repr, DecidableEq

/-- Mutable state of a buffer queue: the ordered buffer and the number of
armed flush-interval timers (the source holds a single handle field; counting
handles lets the at-most-one property be stated rather than assumed). -/
structure QueueState (β : Type) where
  queue : List β
  timerCount : Nat
  deriving Repr, DecidableEq

/-- Trace events of one `flush` call, in program order. -/
inductive FlushEvt (β : Type) where
  | clearedFlushInterval
  | invokedIterator (items : List β)
  deriving Repr, DecidableEq

/-- The `flush` method of `src/lib/bq-buffer-queue.js` (lines 28-44), at the
level of the buffer and timer: splice the first `maxItems` entries out of the
buffer; if the buffer is now empty, clear the flush interval (line 31 — this
happens before the iterator is invoked at line 44); then invoke the iterator
with the extracted batch. Returns the new state, the extracted batch, and the
ordered event trace. -/
def flushStep {β : Type} (cfg : QueueCfg) (st : QueueState β) :
    QueueState β × List β × List (FlushEvt β) :=
  let sp := spliceBatch cfg.maxItems st.queue
  let batch := sp.1
  let rest := sp.2
  let cleared := rest.isEmpty
  let timer1 := if cleared then 0 else st.timerCount
  (⟨rest, timer1⟩, batch,
    (if cleared then [FlushEvt.clearedFlushInterval] else []) ++
      [FlushEvt.invokedIterator batch])

/-- Modelled from the spec: timer arming on enqueue (§4.3): "If maxTimeMs is
configured and no timer is currently armed, arm one on the first enqueue into
an empty buffer". -/
def armOnAdd {β : Type} (cfg : QueueCfg) (st : QueueState β) : Nat :=
  if cfg.maxTime.isSome && st.timerCount == 0 && st.queue.isEmpty then
    st.timerCount + 1
  else st.timerCount

/-- Modelled from the spec: the size-trigger test of the enqueue step (§4.3);
never fires when `maxItems` is unset. -/
def addTrigger (cfg : QueueCfg) (len : Nat) : Bool :=
  match cfg.maxItems with
  | some n => n ≤ len
  | none => false

/-- Modelled from the spec: the enqueue step of the sq-toolkit base class
(§4.3): arm the timer if due, append the item; "Enqueue triggers an immediate
synchronous flush of the oldest maxItems entries once buffer length reaches
maxItems". Returns the new state and the batches emitted by the triggered
flush (none or one). -/
def addStep {β : Type} (cfg : QueueCfg) (st : QueueState β) (x : β) :
    QueueState β × List (List β) :=
  let st1 : QueueState β := ⟨st.queue ++ [x], armOnAdd cfg st⟩
  if addTrigger cfg st1.queue.length = true then
    let fl := flushStep cfg st1
    (fl.1, [fl.2.1])
  else (st1, [])

/-- An externally driven queue operation: an enqueue, a firing of the armed
flush-interval timer (its sole action is `flush()`, §4.3), or a manual
`flush()` call. -/
inductive QOp (β : Type) where
  | add (x : β)
  | timerFire
  | manualFlush
  deriving Repr, DecidableEq

/-- One queue operation. A timer can only fire while armed; a fire on a state
with no armed timer is a no-op. -/
def stepOp {β : Type} (cfg : QueueCfg) (st : QueueState β) :
    QOp β → QueueState β × List (List β)
  | QOp.add x => addStep cfg st x
  | QOp.timerFire =>
      if st.timerCount = 0 then (st, [])
      else
        let fl := flushStep cfg st
        (fl.1, [fl.2.1])
  | QOp.manualFlush =>
      let fl := flushStep cfg st
      (fl.1, [fl.2.1])

/-- Run a sequence of queue operations, collecting the emitted batches in
flush order. -/
def runOps {β : Type} (cfg : QueueCfg) (st : QueueState β) :
    List (QOp β) → QueueState β × List (List β)
  | [] => (st, [])
  | op :: ops =>
      let r1 := stepOp cfg st op
      let r2 := runOps cfg r1.1 ops
      (r2.1, r1.2 ++ r2.2)

/-- The payloads of the `add` operations of a run, in submission order. -/
def addsOf {β : Type} : List (QOp β) → List β
  | [] => []
  | QOp.add x :: ops => x :: addsOf ops
  | _ :: ops => addsOf ops

/-! Error translation: `BigQueryError.parseError` of `src/error.js`. -/

/-- The `PARTIAL_FAILURE_ERROR` constant of `src/error.js`. -/
def PARTIAL_FAILURE_ERROR : String := "PartialFailureError"

/-- One entry of `err.errors` on a remote error: the client attaches the
failing row (an opaque value of type `ρ`) under `row` together with that row's
error list. -/
structure RemoteErrItem (ρ : Type) where
  row : ρ
  errors : List RowError
  deriving Repr, DecidableEq

/-- A remote error as consumed by `BigQueryError.parseError`: `name`, `code`,
an optional `message`, and (read only in the partial-failure branch) a list of
row-level entries. -/
structure RemoteErr (ρ : Type) where
  name : String
  code : String
  message : Option String
  errors : List (RemoteErrItem ρ)
  deriving Repr, DecidableEq

/-- One parsed record pushed by the loop of `parseError`:
`{ row: item.row, reason: _.get(item, 'errors[0].reason', null),
message: _.get(item, 'errors[0].message', null) }`. -/
structure ParsedRowError (ρ : Type) where
  row : ρ
  reason : Option String
  message : Option String
  deriving Repr, DecidableEq

/-- The exception returned by `parseError`: `new Exception(err.code,
err.message || err.name)` with an `errors` field that is null for
non-partial-failure errors and the parsed record list otherwise. -/
structure ParsedExc (ρ : Type) where
  code : String
  message : String
  errors : Option (List (ParsedRowError ρ))
  deriving Repr, DecidableEq

/-- `BigQueryError.parseError` (`src/error.js` lines 14-38). It performs no
logging: extra reason/message pairs beyond the first of each row are dropped
silently. -/
def parseError {ρ : Type} (err : RemoteErr ρ) : ParsedExc ρ :=
  let msg := err.message.getD err.name
  if err.name ≠ PARTIAL_FAILURE_ERROR then
    ⟨err.code, msg, none⟩
  else
    ⟨err.code, msg,
      some (err.errors.map fun item =>
        ⟨item.row, (item.errors.head?).map RowError.reason,
          (item.errors.head?).map RowError.message⟩)⟩

/-- A `RowInsertError{index, reason, message}` record as the spec's error
translator contract describes it (§4.4). -/
structure RowInsertErrorSpec where
  index : Nat
  reason : Option String
  message : Option String
  deriving Repr, DecidableEq

/-- Modelled from the spec's words, for comparison with `parseError` (§4.4):
"extract, for each failing row: its ordinal index, the first reported
reason/message pair (if a row carries more than one error, log the extras and
still raise only the first...), yielding a RowInsertError{index, reason,
message}". Returns the records and the logged extra pairs. -/
def specTranslatePartial {ρ : Type} (err : RemoteErr ρ) :
    List RowInsertErrorSpec × List RowError :=
  let records := err.errors.enum.map fun p =>
    ⟨p.1, (p.2.errors.head?).map RowError.reason,
      (p.2.errors.head?).map RowError.message⟩
  let logged := err.errors.flatMap fun item => item.errors.drop 1
  (records, logged)

/-! The table-level `insert` dispatch and row enveloping
(`src/table.js`, revision with `bufferItemPromises`). -/

/-- Argument of `BigQueryTable.insert`: a single row object or an array of
row objects; `β` stands for a row value. -/
inductive InsertArg (β : Type) where
  | one (r : β)
  | many (rs : List β)
  deriving Repr, DecidableEq

/-- The action `insert` takes after dispatching, recording which collaborator
receives which rows. -/
inductive InsertAction (β : Type) where
  | direct (rows : List β)
  | addMany (rows : List β)
  | addOne (row : β)
  deriving Repr, DecidableEq

/-- Table configuration flags read by `insert`. -/
structure TableCfg where
  bufferEnabled : Bool
  bufferItemPromises : Bool
  deriving Repr, DecidableEq

/-- The `insert` dispatch of `src/table.js` (revision with
`bufferItemPromises`, lines 251-264), at the level of the buffer contents:
buffer disabled → direct remote insert (buffer untouched); array with
`bufferItemPromises` enabled → synchronous `Exception` with code
`ERROR_ADD_MANY_NOT_SUPPORTED` before anything is enqueued; array otherwise →
`addMany`; single row → `add`. Returns the error, or the new buffer and the
taken action. `env` is the enveloping applied before handing rows to the
buffer (`getRawRow`/`getRawRows`). -/
def tableInsert {β γ : Type} (cfg : TableCfg) (env : β → γ) (buf : List γ)
    (data : InsertArg β) : Except Exc (InsertAction γ) × List γ :=
  if cfg.bufferEnabled = false then
    match data with
    | InsertArg.one r => (Except.ok (InsertAction.direct [env r]), buf)
    | InsertArg.many rs => (Except.ok (InsertAction.direct (rs.map env)), buf)
  else
    match data with
    | InsertArg.many rs =>
        if cfg.bufferItemPromises = true then
          (Except.error
            ⟨ERROR_ADD_MANY_NOT_SUPPORTED,
              "Can't insert multiple rows at once when bufferItemPromises is enabled."⟩,
            buf)
        else
          (Except.ok (InsertAction.addMany (rs.map env)), buf ++ rs.map env)
    | InsertArg.one r =>
        (Except.ok (InsertAction.addOne (env r)), buf ++ [env r])

/-! Row enveloping `BigQueryTable.getRawRow` (`src/table.js` lines 295-303),
embedded over an explicit object heap so that the mutation footprint of
`Object.assign` and `delete` is visible. -/

/-- A JavaScript field value, as far as `getRawRow` distinguishes them:
`null`, `undefined`, or a proper value (a string id or an opaque payload
value). -/
inductive JVal (π : Type) where
  | vnull
  | vundef
  | str (s : String)
  | payload (v : π)
  deriving Repr, DecidableEq

/-- A JavaScript object: an ordered list of own fields with distinct keys. -/
abbrev JsObj (π : Type) : Type := List (String × JVal π)

/-- Property read `obj.k`: value of the first field named `k`, `undefined`
when absent. -/
def getField {π : Type} (o : JsObj π) (k : String) : JVal π :=
  match o.find? (fun f => f.1 == k) with
  | some f => f.2
  | none => JVal.vundef

/-- Property removal `delete obj.k`. -/
def deleteField {π : Type} (o : JsObj π) (k : String) : JsObj π :=
  o.filter (fun f => f.1 != k)

/-- JavaScript loose inequality `v != null`: false exactly for `null` and
`undefined`. -/
def notNullish {π : Type} : JVal π → Bool
  | JVal.vnull => false
  | JVal.vundef => false
  | _ => true

/-- An object heap: objects addressed by their allocation index. -/
structure Heap (π : Type) where
  objs : List (JsObj π)
  deriving Repr, DecidableEq

/-- Contents at address `a` (the empty object for a dangling address). -/
def Heap.objAt {π : Type} (h : Heap π) (a : Nat) : JsObj π :=
  (h.objs[a]?).getD []

/-- Allocate a fresh object with contents `o`; its address is the previous
heap size. -/
def Heap.alloc {π : Type} (h : Heap π) (o : JsObj π) : Heap π × Nat :=
  (⟨h.objs ++ [o]⟩, h.objs.length)

/-- Overwrite the object at address `a`. -/
def Heap.write {π : Type} (h : Heap π) (a : Nat) (o : JsObj π) : Heap π :=
  ⟨h.objs.set a o⟩

/-- The field name `_insertId`. -/
def INSERT_ID_KEY : String := "_insertId"

/-- The envelope `{ insertId, json }` returned by `getRawRow`; `json` holds a
reference to the copied object. -/
structure Envelope (π : Type) where
  insertId : JVal π
  json : Nat
  deriving Repr, DecidableEq

/-- `BigQueryTable.getRawRow` (`src/table.js` lines 295-303):
`let item = Object.assign({}, row)` allocates a shallow copy; if
`item._insertId != null` the caller-supplied id is taken and the `_insertId`
key is deleted from the copy; otherwise a freshly generated id
(`BigQueryTable.getInsertId()`, injected here as `genId`) is used. Returns the
heap after the call and the envelope. -/
def getRawRow {π : Type} (h : Heap π) (rowAddr : Nat) (genId : String) :
    Heap π × Envelope π :=
  let rowObj := h.objAt rowAddr
  let al := h.alloc rowObj
  let h1 := al.1
  let itemAddr := al.2
  let v := getField rowObj INSERT_ID_KEY
  if notNullish v then
    (h1.write itemAddr (deleteField rowObj INSERT_ID_KEY), ⟨v, itemAddr⟩)
  else
    (h1, ⟨JVal.str genId, itemAddr⟩)

/-! The module-level client singleton of `src/helper.js`. -/

/-- Error-code constants of `src/helper.js`. -/
def ERROR_INSTANCE_NOT_CREATED : String := "ERROR_INSTANCE_NOT_CREATED"

/-- Error code thrown by `createInstance` when an instance already exists. -/
def ERROR_INSTANCE_ALREADY_CREATED : String := "ERROR_INSTANCE_ALREADY_CREATED"

/-- The module-level `_instance` cell; `κ` is the BigQuery client type. -/
structure HelperState (κ : Type) where
  inst : Option κ
  deriving Repr, DecidableEq

/-- `BigQueryHelper.getInstance` (`src/helper.js` lines 21-26): throws
`ERROR_INSTANCE_NOT_CREATED` when `_instance == null`, else returns it. The
state is never written by this call. -/
def getInstance {κ : Type} (s : HelperState κ) : Except Exc κ :=
  match s.inst with
  | none =>
      Except.error
        ⟨ERROR_INSTANCE_NOT_CREATED,
          "BigQuery instance should be created with .createInstance()"⟩
  | some c => Except.ok c

/-- `BigQueryHelper.createInstance` (`src/helper.js` lines 36-42): throws
`ERROR_INSTANCE_ALREADY_CREATED` when an instance exists (leaving the cell
unchanged), else stores `BigQueryHelper.create(opts)` — abstracted as the
injected constructor `mk` — and returns it. Returns the call result and the
state after the call. -/
def createInstance {κ ο : Type} (mk : ο → κ) (opts : ο) (s : HelperState κ) :
    Except Exc κ × HelperState κ :=
  match s.inst with
  | some _ =>
      (Except.error
        ⟨ERROR_INSTANCE_ALREADY_CREATED,
          "BigQuery instance is already created and initialized. Use .getInstance()"⟩,
        s)
  | none =>
      let c := mk opts
      (Except.ok c, ⟨some c⟩)

/-- `BigQueryHelper.clearInstance` (`src/helper.js` lines 44-46). -/
def clearInstance {κ : Type} (_ : HelperState κ) : HelperState κ := ⟨none⟩

/-! Helper lemmas. -/

/-- Completing a pending result does not touch the `__fulfilled` marker. -/
lemma forceResolve_flag {ε : Type} (p : PendingResult ε) :
    (forceResolve p).fulfilledFlag = p.fulfilledFlag := by
  unfold forceResolve
  cases p.state <;> rfl

/-- Rejecting a pending result does not touch the `__fulfilled` marker. -/
lemma forceReject_flag {ε : Type} (e : ε) (p : PendingResult ε) :
    (forceReject e p).fulfilledFlag = p.fulfilledFlag := by
  unfold forceReject
  cases p.state <;> rfl

/-- Every iteration of the reconciliation loop marks its pair `__fulfilled`. -/
lemma reconcileOne_flag {ω : Type} (m : Nat → Option (List RowError)) (i : Nat)
    (pr : PendingResult (FlushErr ω)) :
    ((reconcileOne m i pr).1).fulfilledFlag = true := by
  unfold reconcileOne
  cases m i with
  | some errorArr => simp [forceReject_flag]
  | none => simp [forceResolve_flag]

/-- Indexing the catch branch: it rewrites each pair pointwise. -/
lemma rejectNotFulfilled_get {α ω : Type} (e : FlushErr ω)
    (pairs : List (α × PendingResult (FlushErr ω))) (j : Nat) :
    (rejectNotFulfilled e pairs)[j]? =
      (pairs[j]?).map
        (fun p => if p.2.fulfilledFlag = true then p else (p.1, forceReject e p.2)) := by
  unfold rejectNotFulfilled
  exact List.getElem?_map _ _ _

/-- Pairs already processed by an interrupted reconciliation loop carry the
`__fulfilled` marker. -/
lemma reconcileUpTo_flag {α ω : Type} (m : Nat → Option (List RowError)) :
    ∀ (i k j : Nat) (pairs : List (α × PendingResult (FlushErr ω)))
      (p : α × PendingResult (FlushErr ω)),
      j < k → (reconcileUpTo m i k pairs)[j]? = some p →
      p.2.fulfilledFlag = true := by
  intro i k j pairs
  induction pairs generalizing i k j with
  | nil =>
      intro p hj hp
      cases k with
      | zero => exact absurd hj (Nat.not_lt_zero j)
      | succ k => simp [reconcileUpTo] at hp
  | cons hd tl ih =>
      intro p hj hp
      cases k with
      | zero => exact absurd hj (Nat.not_lt_zero j)
      | succ k =>
          obtain ⟨a, pr⟩ := hd
          cases j with
          | zero =>
              simp [reconcileUpTo] at hp
              subst hp
              exact reconcileOne_flag m i pr
          | succ j =>
              simp [reconcileUpTo] at hp
              exact ih (i + 1) k j p (Nat.lt_of_succ_lt_succ hj) hp

/-! Claim C5. -/

/-- C5: completion of a PendingResult is idempotent: a completion call on an
already-terminal result is a no-op that changes neither state nor stored
error nor the `__fulfilled` marker; a second completion never changes the
outcome set by the first; and the whole-batch rejection path
(`rejectNotFulfilled`) never changes a pair the per-item reconciliation loop
already settled, even if the loop was interrupted after `k` iterations. -/
theorem pending_result_completion_idempotent :
    (∀ (ε : Type) (p : PendingResult ε) (o : Completion ε),
      isTerminal p = true → applyCompletion o p = p) ∧
    (∀ (ε : Type) (p : PendingResult ε) (o1 o2 : Completion ε),
      applyCompletion o2 (applyCompletion o1 p) = applyCompletion o1 p) ∧
    (∀ (α ω : Type) (m : Nat → Option (List RowError)) (i k : Nat)
      (pairs : List (α × PendingResult (FlushErr ω))) (e : FlushErr ω) (j : Nat),
      j < k →
      (rejectNotFulfilled e (reconcileUpTo m i k pairs))[j]? =
        (reconcileUpTo m i k pairs)[j]?) := by
  refine ⟨?_, ?_, ?_⟩
  · intro ε p o ht
    cases o with
    | resolve =>
        unfold applyCompletion forceResolve
        cases hs : p.state <;> simp [isTerminal, hs] at ht ⊢
    | reject e =>
        unfold applyCompletion forceReject
        cases hs : p.state <;> simp [isTerminal, hs] at ht ⊢
  · intro ε p o1 o2
    have step : ∀ (o : Completion ε) (q : PendingResult ε),
        isTerminal q = true → applyCompletion o q = q := by
      intro o q ht
      cases o with
      | resolve =>
          unfold applyCompletion forceResolve
          cases hs : q.state <;> simp [isTerminal, hs] at ht ⊢
      | reject e =>
          unfold applyCompletion forceReject
          cases hs : q.state <;> simp [isTerminal, hs] at ht ⊢
    apply step
    cases o1 with
    | resolve =>
        unfold applyCompletion forceResolve
        cases hs : p.state <;> simp [isTerminal, hs]
    | reject e =>
        unfold applyCompletion forceReject
        cases hs : p.state <;> simp [isTerminal, hs]
  · intro α ω m i k pairs e j hj
    rw [rejectNotFulfilled_get]
    cases hp : (reconcileUpTo m i k pairs)[j]? with
    | none => rfl
    | some p =>
        have hf := reconcileUpTo_flag m i k j pairs p hj hp
        simp [hf]

/-- Witness for C5 at concrete inputs: a rejected result stays unchanged under
a later resolve, and the catch path leaves an already-reconciled pair alone. -/
theorem pending_result_completion_idempotent_witness :
    applyCompletion Completion.resolve
        (⟨PrState.rejected (FlushErr.outer 0), false⟩ : PendingResult (FlushErr Nat)) =
      ⟨PrState.rejected (FlushErr.outer 0), false⟩ ∧
    (rejectNotFulfilled (FlushErr.outer 0)
        (reconcileUpTo (fun _ => none) 0 1
          [((5 : Nat), (⟨PrState.pending, false⟩ : PendingResult (FlushErr Nat)))]))[0]? =
      (reconcileUpTo (fun _ => none) 0 1
          [((5 : Nat), (⟨PrState.pending, false⟩ : PendingResult (FlushErr Nat)))])[0]? :=
  ⟨pending_result_completion_idempotent.1 (FlushErr Nat) _ _ (by decide),
    pending_result_completion_idempotent.2.2 Nat Nat (fun _ => none) 0 1 _ _ 0
      (by decide)⟩

/-! Claim C8. -/

/-- C8: in untracked mode the promise returned by the flush processing always
fulfills; an iterator rejection is caught, surfaces only as the logger-hook
event (emitted exactly when a logger is configured), and never propagates;
the `notify()` side-effect is the final event in every case. -/
theorem untracked_flush_never_rejects :
    ∀ (ω ρ : Type) (hasLogger : Bool) (outcome : Except ω ρ),
      (∃ v, (processFlushIteratorWithoutItemPromises hasLogger outcome).1 = Except.ok v) ∧
      ((processFlushIteratorWithoutItemPromises hasLogger outcome).2).getLast? =
        some QueueEvt.notified ∧
      (∀ e, outcome = Except.error e →
        (processFlushIteratorWithoutItemPromises hasLogger outcome).2 =
          (if hasLogger then [QueueEvt.loggedFlushError] else []) ++ [QueueEvt.notified]) := by
  intro ω ρ hasLogger outcome
  cases outcome with
  | ok v => cases hasLogger <;> simp [processFlushIteratorWithoutItemPromises]
  | error e => cases hasLogger <;> simp [processFlushIteratorWithoutItemPromises]

/-- Witness for C8: a rejected iterator promise with a configured logger. -/
theorem untracked_flush_never_rejects_witness :
    (∃ v, (processFlushIteratorWithoutItemPromises true
        (Except.error (0 : Nat) : Except Nat Nat)).1 = Except.ok v) ∧
    (processFlushIteratorWithoutItemPromises true
        (Except.error (0 : Nat) : Except Nat Nat)).2 =
      [QueueEvt.loggedFlushError, QueueEvt.notified] :=
  ⟨(untracked_flush_never_rejects Nat Nat true (Except.error 0)).1,
    ((untracked_flush_never_rejects Nat Nat true (Except.error 0)).2.2 0 rfl).trans
      (by decide)⟩

/-! Claim C7. -/

/-- C7: with buffering and per-item tracking both enabled, `insert` with an
array of rows throws the typed `ERROR_ADD_MANY_NOT_SUPPORTED` exception
synchronously and the buffer is unchanged by the failed call. -/
theorem insert_array_item_promises_throws {β γ : Type} (cfg : TableCfg)
    (env : β → γ) (buf : List γ) (rs : List β)
    (hb : cfg.bufferEnabled = true) (hp : cfg.bufferItemPromises = true) :
    tableInsert cfg env buf (InsertArg.many rs) =
      (Except.error
        ⟨ERROR_ADD_MANY_NOT_SUPPORTED,
          "Can't insert multiple rows at once when bufferItemPromises is enabled."⟩,
        buf) := by
  simp [tableInsert, hb, hp]

/-- Witness for C7: a two-row array insert on a tracking buffered table with a
non-empty buffer. -/
theorem insert_array_item_promises_throws_witness :
    tableInsert ⟨true, true⟩ (fun n => n + 1) [7]
        (InsertArg.many [(1 : Nat), 2]) =
      (Except.error
        ⟨ERROR_ADD_MANY_NOT_SUPPORTED,
          "Can't insert multiple rows at once when bufferItemPromises is enabled."⟩,
        [7]) :=
  insert_array_item_promises_throws ⟨true, true⟩ (fun n => n + 1) [7] [1, 2] rfl rfl

/-! Claim C10. -/

/-- C10: the module-level client singleton is a guarded state machine:
`getInstance` throws `ERROR_INSTANCE_NOT_CREATED` exactly when no instance is
stored (it never writes the cell), `createInstance` throws
`ERROR_INSTANCE_ALREADY_CREATED` exactly when one is stored — leaving the
cell unchanged — and otherwise stores and returns the new client;
`clearInstance` empties the cell. -/
theorem helper_singleton_guarded {κ ο : Type} (mk : ο → κ) (opts : ο)
    (s : HelperState κ) :
    (s.inst = none →
      getInstance s =
        Except.error
          ⟨ERROR_INSTANCE_NOT_CREATED,
            "BigQuery instance should be created with .createInstance()"⟩) ∧
    (∀ c, s.inst = some c → getInstance s = Except.ok c) ∧
    (s.inst ≠ none →
      createInstance mk opts s =
        (Except.error
          ⟨ERROR_INSTANCE_ALREADY_CREATED,
            "BigQuery instance is already created and initialized. Use .getInstance()"⟩,
          s)) ∧
    (s.inst = none →
      createInstance mk opts s = (Except.ok (mk opts), ⟨some (mk opts)⟩)) ∧
    clearInstance s = (⟨none⟩ : HelperState κ) := by
  refine ⟨?_, ?_, ?_, ?_, rfl⟩
  · intro h
    simp [getInstance, h]
  · intro c h
    simp [getInstance, h]
  · intro h
    cases hs : s.inst with
    | none => exact absurd hs h
    | some c => simp [createInstance, hs]
  · intro h
    simp [createInstance, h]

/-- Witness for C10: the empty cell accepts creation, the full cell rejects a
second creation without being overwritten. -/
theorem helper_singleton_guarded_witness :
    getInstance (⟨none⟩ : HelperState Nat) =
      Except.error
        ⟨ERROR_INSTANCE_NOT_CREATED,
          "BigQuery instance should be created with .createInstance()"⟩ ∧
    createInstance (fun n => n * 2) 21 (⟨none⟩ : HelperState Nat) =
      (Except.ok 42, ⟨some 42⟩) ∧
    createInstance (fun n => n * 2) 21 (⟨some 42⟩ : HelperState Nat) =
      (Except.error
        ⟨ERROR_INSTANCE_ALREADY_CREATED,
          "BigQuery instance is already created and initialized. Use .getInstance()"⟩,
        ⟨some 42⟩) :=
  ⟨(helper_singleton_guarded (fun n => n * 2) 21 ⟨none⟩).1 rfl,
    (helper_singleton_guarded (fun n => n * 2) 21 ⟨none⟩).2.2.2.1 rfl,
    (helper_singleton_guarded (fun n => n * 2) 21 ⟨some 42⟩).2.2.1 (by decide)⟩

/-- A fold over entries none of which carries index `i` leaves the map
unchanged at `i`. -/
lemma foldlErrors_no_hit (l : List InsertErrorEntry)
    (m : Nat → Option (List RowError)) (i : Nat)
    (h : ∀ e ∈ l, e.index ≠ i) :
    (l.foldl (fun m e => fun i => if i = e.index then some e.errors else m i) m) i =
      m i := by
  induction l generalizing m with
  | nil => rfl
  | cons e t ih =>
      simp only [List.foldl_cons]
      rw [ih _ (fun e' he' => h e' (List.mem_cons_of_mem e he'))]
      have hne : i ≠ e.index := fun hi => h e (List.mem_cons_self e t) hi.symm
      simp [hne]

/-- With pairwise-distinct indices, the last-write-wins `errors` object agrees
with the first (unique) matching entry of `insertErrors`. -/
lemma foldlErrors_eq_find (l : List InsertErrorEntry)
    (m : Nat → Option (List RowError)) (i : Nat)
    (hnodup : (l.map InsertErrorEntry.index).Nodup) :
    (l.foldl (fun m e => fun i => if i = e.index then some e.errors else m i) m) i =
      match l.find? (fun e => e.index == i) with
      | some ent => some ent.errors
      | none => m i := by
  induction l generalizing m with
  | nil => rfl
  | cons e t ih =>
      simp only [List.map_cons, List.nodup_cons] at hnodup
      obtain ⟨hhead, htail⟩ := hnodup
      simp only [List.foldl_cons]
      by_cases hi : e.index = i
      · have hfind : (e :: t).find? (fun e => e.index == i) = some e := by
          simp [List.find?_cons, hi]
        rw [hfind]
        have hnone : ∀ e' ∈ t, e'.index ≠ i := by
          intro e' he' hcontra
          exact hhead (hi ▸ hcontra ▸ List.mem_map_of_mem InsertErrorEntry.index he')
        rw [foldlErrors_no_hit t _ i hnone]
        simp [hi]
      · have hfind : (e :: t).find? (fun e => e.index == i) =
            t.find? (fun e => e.index == i) := by
          simp [List.find?_cons, hi]
        rw [hfind, ih _ htail]
        have hne : i ≠ e.index := fun h => hi h.symm
        cases t.find? (fun e => e.index == i) <;> simp [hne]

/-- The `errors` object of `_processFlushIteratorWithItemPromises`, under the
response contract that `insertErrors` reports each ordinal index at most once,
looks up the unique entry for the index. -/
lemma buildErrorsMap_eq (l : List InsertErrorEntry)
    (hnodup : (l.map InsertErrorEntry.index).Nodup) (i : Nat) :
    buildErrorsMap l i =
      (l.find? (fun e => e.index == i)).map InsertErrorEntry.errors := by
  unfold buildErrorsMap
  rw [foldlErrors_eq_find l _ i hnodup]
  cases l.find? (fun e => e.index == i) <;> rfl

/-- Indexing the reconciliation loop: pair `j` is reconciled against ordinal
index `i + j`. -/
lemma reconcileLoop_get {α ω : Type} (m : Nat → Option (List RowError)) :
    ∀ (pairs : List (α × PendingResult (FlushErr ω))) (i j : Nat),
      ((reconcileLoop m i pairs).1)[j]? =
        (pairs[j]?).map (fun p => (p.1, (reconcileOne m (i + j) p.2).1)) := by
  intro pairs
  induction pairs with
  | nil => intro i j; simp [reconcileLoop]
  | cons hd tl ih =>
      intro i j
      obtain ⟨a, pr⟩ := hd
      cases j with
      | zero => simp [reconcileLoop]
      | succ j =>
          simp only [reconcileLoop, List.getElem?_cons_succ]
          rw [ih (i + 1) j]
          have harith : i + 1 + j = i + (j + 1) := by omega
          rw [harith]

/-! Claim C1. -/

/-- C1: per-item reconciliation of a tracked batch on a fulfilled flush
response. Under the response contract (each reported ordinal index appears at
most once and carries a non-empty error list), every pair whose ordinal index
is reported in `insertErrors` ends force-rejected with the translated
`BQ_INSERT_ERROR` exception built from the first reason/message pair reported
for that index, and every other pair ends force-resolved; with an absent or
empty `insertErrors` no index is found, so the second conjunct resolves all
`n` pairs. -/
theorem tracked_flush_reconciliation {α ω : Type}
    (pairs : List (α × PendingResult (FlushErr ω))) (resp : InsertResponse)
    (hpend : ∀ p ∈ pairs, p.2.state = PrState.pending)
    (hnodup : (resp.insertErrors.map InsertErrorEntry.index).Nodup)
    (hne : ∀ e ∈ resp.insertErrors, e.errors ≠ []) :
    ∀ (j : Nat) (p : α × PendingResult (FlushErr ω)), pairs[j]? = some p →
      (∀ ent, resp.insertErrors.find? (fun e => e.index == j) = some ent →
        ∃ e0 rest, ent.errors = e0 :: rest ∧
          ((processFlushIteratorWithItemPromises (Except.ok resp) pairs).1)[j]? =
            some (p.1, ⟨PrState.rejected
              (FlushErr.exc ⟨BQ_INSERT_ERROR, e0.reason ++ ": " ++ e0.message⟩),
              true⟩)) ∧
      (resp.insertErrors.find? (fun e => e.index == j) = none →
        ((processFlushIteratorWithItemPromises (Except.ok resp) pairs).1)[j]? =
          some (p.1, ⟨PrState.fulfilled, true⟩)) := by
  intro j p hp
  have hmem : p ∈ pairs := by
    have := List.getElem?_eq_some_iff.mp hp
    obtain ⟨hj, hget⟩ := this
    exact hget ▸ List.getElem_mem hj
  have hstate := hpend p hmem
  have hkey := buildErrorsMap_eq resp.insertErrors hnodup j
  constructor
  · intro ent hent
    have hentmem : ent ∈ resp.insertErrors := List.mem_of_find?_eq_some hent
    obtain ⟨e0, rest, hcons⟩ := List.exists_cons_of_ne_nil (hne ent hentmem)
    refine ⟨e0, rest, hcons, ?_⟩
    show ((reconcileLoop (buildErrorsMap resp.insertErrors) 0 pairs).1)[j]? = _
    rw [reconcileLoop_get, hp]
    have hm : buildErrorsMap resp.insertErrors (0 + j) = some ent.errors := by
      rw [Nat.zero_add, hkey, hent]; rfl
    simp only [Option.map_some']
    rw [show (reconcileOne (buildErrorsMap resp.insertErrors) (0 + j) p.2).1 =
        ⟨PrState.rejected
          (FlushErr.exc ⟨BQ_INSERT_ERROR, e0.reason ++ ": " ++ e0.message⟩),
          true⟩ from ?_]
    unfold reconcileOne
    rw [hm, hcons]
    simp only [insertErrMessage]
    unfold forceReject
    simp [hstate]
  · intro hnone
    show ((reconcileLoop (buildErrorsMap resp.insertErrors) 0 pairs).1)[j]? = _
    rw [reconcileLoop_get, hp]
    have hm : buildErrorsMap resp.insertErrors (0 + j) = none := by
      rw [Nat.zero_add, hkey, hnone]; rfl
    simp only [Option.map_some']
    rw [show (reconcileOne (buildErrorsMap resp.insertErrors) (0 + j) p.2).1 =
        ⟨PrState.fulfilled, true⟩ from ?_]
    unfold reconcileOne
    rw [hm]
    unfold forceResolve
    simp [hstate]

/-- Witness for C1 at the spec's own example: `insertErrors=[{index:1,...}]`
for a 3-item tracked batch resolves items 0 and 2 and rejects item 1 with the
translated first reason/message pair. -/
theorem tracked_flush_reconciliation_witness :
    (((processFlushIteratorWithItemPromises
        (Except.ok (⟨[⟨1, [⟨"invalid", "bad value"⟩]⟩]⟩ : InsertResponse))
        [((10 : Nat), (⟨PrState.pending, false⟩ : PendingResult (FlushErr Nat))),
          (11, ⟨PrState.pending, false⟩), (12, ⟨PrState.pending, false⟩)]).1)[0]? =
      some (10, ⟨PrState.fulfilled, true⟩)) ∧
    (((processFlushIteratorWithItemPromises
        (Except.ok (⟨[⟨1, [⟨"invalid", "bad value"⟩]⟩]⟩ : InsertResponse))
        [((10 : Nat), (⟨PrState.pending, false⟩ : PendingResult (FlushErr Nat))),
          (11, ⟨PrState.pending, false⟩), (12, ⟨PrState.pending, false⟩)]).1)[1]? =
      some (11, ⟨PrState.rejected
        (FlushErr.exc ⟨BQ_INSERT_ERROR, "invalid: bad value"⟩), true⟩)) ∧
    (((processFlushIteratorWithItemPromises
        (Except.ok (⟨[⟨1, [⟨"invalid", "bad value"⟩]⟩]⟩ : InsertResponse))
        [((10 : Nat), (⟨PrState.pending, false⟩ : PendingResult (FlushErr Nat))),
          (11, ⟨PrState.pending, false⟩), (12, ⟨PrState.pending, false⟩)]).1)[2]? =
      some (12, ⟨PrState.fulfilled, true⟩)) := by
  have T := tracked_flush_reconciliation
    [((10 : Nat), (⟨PrState.pending, false⟩ : PendingResult (FlushErr Nat))),
      (11, ⟨PrState.pending, false⟩), (12, ⟨PrState.pending, false⟩)]
    (⟨[⟨1, [⟨"invalid", "bad value"⟩]⟩]⟩ : InsertResponse)
    (by decide) (by decide) (by decide)
  refine ⟨(T 0 _ rfl).2 rfl, ?_, (T 2 _ rfl).2 rfl⟩
  obtain ⟨e0, rest, hcons, hout⟩ :=
    (T 1 _ rfl).1 ⟨1, [⟨"invalid", "bad value"⟩]⟩ rfl
  have h0 : e0 = ⟨"invalid", "bad value"⟩ := by
    injection hcons with h1 h2
    exact h1.symm
  rw [h0] at hout
  exact hout

/-! Claim C2. -/

/-- C2: when the iterator promise of a tracked batch rejects with error `e`
(so the fulfilled branch never ran and every pair is still fresh), every pair
is force-rejected with that same error and none is resolved. -/
theorem tracked_flush_whole_batch_rejected {α ω : Type}
    (pairs : List (α × PendingResult (FlushErr ω))) (e : ω)
    (hfresh : ∀ p ∈ pairs, p.2 = ⟨PrState.pending, false⟩) :
    (∀ (j : Nat) (p : α × PendingResult (FlushErr ω)), pairs[j]? = some p →
      ((processFlushIteratorWithItemPromises (Except.error e) pairs).1)[j]? =
        some (p.1, ⟨PrState.rejected (FlushErr.outer e), false⟩)) ∧
    (∀ q ∈ (processFlushIteratorWithItemPromises (Except.error e) pairs).1,
      q.2.state ≠ PrState.fulfilled) := by
  constructor
  · intro j p hp
    have hmem : p ∈ pairs := by
      have := List.getElem?_eq_some_iff.mp hp
      obtain ⟨hj, hget⟩ := this
      exact hget ▸ List.getElem_mem hj
    have hfr := hfresh p hmem
    show (rejectNotFulfilled (FlushErr.outer e) pairs)[j]? = _
    rw [rejectNotFulfilled_get, hp]
    simp only [Option.map_some']
    rw [hfr]
    simp [forceReject]
  · intro q hq
    have hq' : q ∈ rejectNotFulfilled (FlushErr.outer e) pairs := hq
    unfold rejectNotFulfilled at hq'
    obtain ⟨p, hpmem, hpq⟩ := List.mem_map.mp hq'
    have hfr := hfresh p hpmem
    rw [hfr] at hpq
    simp [forceReject] at hpq
    rw [← hpq]
    simp

/-- Witness for C2 at the spec's own example: a 2-item tracked batch whose
flush promise rejects entirely rejects both results with the same error. -/
theorem tracked_flush_whole_batch_rejected_witness :
    (((processFlushIteratorWithItemPromises (Except.error (9 : Nat))
        [((10 : Nat), (⟨PrState.pending, false⟩ : PendingResult (FlushErr Nat))),
          (11, ⟨PrState.pending, false⟩)]).1)[0]? =
      some (10, ⟨PrState.rejected (FlushErr.outer 9), false⟩)) ∧
    (((processFlushIteratorWithItemPromises (Except.error (9 : Nat))
        [((10 : Nat), (⟨PrState.pending, false⟩ : PendingResult (FlushErr Nat))),
          (11, ⟨PrState.pending, false⟩)]).1)[1]? =
      some (11, ⟨PrState.rejected (FlushErr.outer 9), false⟩)) := by
  have T := tracked_flush_whole_batch_rejected
    [((10 : Nat), (⟨PrState.pending, false⟩ : PendingResult (FlushErr Nat))),
      (11, ⟨PrState.pending, false⟩)] 9 (by decide)
  exact ⟨T.1 0 _ rfl, T.1 1 _ rfl⟩

/-! Equation lemmas for the queue machine. -/

/-- Splicing with a configured threshold is take/drop. -/
lemma spliceBatch_some {β : Type} (k : Nat) (q : List β) :
    spliceBatch (some k) q = (q.take k, q.drop k) := rfl

/-- Batch component of a flush. -/
lemma flushStep_batch {β : Type} (cfg : QueueCfg) (st : QueueState β) :
    (flushStep cfg st).2.1 = (spliceBatch cfg.maxItems st.queue).1 := rfl

/-- Remaining buffer after a flush. -/
lemma flushStep_queue {β : Type} (cfg : QueueCfg) (st : QueueState β) :
    (flushStep cfg st).1.queue = (spliceBatch cfg.maxItems st.queue).2 := rfl

/-- Timer after a flush: cleared exactly when the extraction emptied the
buffer. -/
lemma flushStep_timer {β : Type} (cfg : QueueCfg) (st : QueueState β) :
    (flushStep cfg st).1.timerCount =
      if ((spliceBatch cfg.maxItems st.queue).2).isEmpty = true then 0
      else st.timerCount := rfl

/-- Event trace of a flush. -/
lemma flushStep_trace {β : Type} (cfg : QueueCfg) (st : QueueState β) :
    (flushStep cfg st).2.2 =
      (if ((spliceBatch cfg.maxItems st.queue).2).isEmpty = true then
        [FlushEvt.clearedFlushInterval]
      else []) ++
        [FlushEvt.invokedIterator (spliceBatch cfg.maxItems st.queue).1] := rfl

/-- The size trigger with a configured threshold. -/
lemma addTrigger_some (cfg : QueueCfg) (N : Nat) (hc : cfg.maxItems = some N)
    (L : Nat) : addTrigger cfg L = decide (N ≤ L) := by
  unfold addTrigger
  rw [hc]

/-- Unfolding of the enqueue step. -/
lemma addStep_eq {β : Type} (cfg : QueueCfg) (st : QueueState β) (x : β) :
    addStep cfg st x =
      if addTrigger cfg (st.queue.length + 1) = true then
        ((flushStep cfg ⟨st.queue ++ [x], armOnAdd cfg st⟩).1,
          [(flushStep cfg ⟨st.queue ++ [x], armOnAdd cfg st⟩).2.1])
      else (⟨st.queue ++ [x], armOnAdd cfg st⟩, []) := by
  simp only [addStep]
  have hlen : (st.queue ++ [x]).length = st.queue.length + 1 := by simp
  rw [hlen]

/-- Stepping an add. -/
lemma stepOp_add {β : Type} (cfg : QueueCfg) (st : QueueState β) (x : β) :
    stepOp cfg st (QOp.add x) = addStep cfg st x := rfl

/-- Stepping a manual flush. -/
lemma stepOp_manualFlush {β : Type} (cfg : QueueCfg) (st : QueueState β) :
    stepOp cfg st QOp.manualFlush =
      ((flushStep cfg st).1, [(flushStep cfg st).2.1]) := rfl

/-- A timer fire with no armed timer is a no-op. -/
lemma stepOp_timerFire_zero {β : Type} (cfg : QueueCfg) (st : QueueState β)
    (hz : st.timerCount = 0) : stepOp cfg st QOp.timerFire = (st, []) := by
  simp only [stepOp]
  rw [if_pos hz]

/-- A timer fire with an armed timer flushes. -/
lemma stepOp_timerFire_armed {β : Type} (cfg : QueueCfg) (st : QueueState β)
    (hz : ¬st.timerCount = 0) :
    stepOp cfg st QOp.timerFire =
      ((flushStep cfg st).1, [(flushStep cfg st).2.1]) := by
  simp only [stepOp]
  rw [if_neg hz]

/-- Running a concatenation of operation lists composes. -/
lemma runOps_append {β : Type} (cfg : QueueCfg) (st : QueueState β)
    (l1 l2 : List (QOp β)) :
    runOps cfg st (l1 ++ l2) =
      ((runOps cfg (runOps cfg st l1).1 l2).1,
        (runOps cfg st l1).2 ++ (runOps cfg (runOps cfg st l1).1 l2).2) := by
  induction l1 generalizing st with
  | nil => simp [runOps]
  | cons op t ih => simp [runOps, ih, List.append_assoc]

/-- A flush of a buffer not exceeding the threshold drains it entirely. -/
lemma flushAll_of_le {β : Type} (cfg : QueueCfg) (N : Nat)
    (hc : cfg.maxItems = some N) (st : QueueState β)
    (hle : st.queue.length ≤ N) :
    (flushStep cfg st).2.1 = st.queue ∧ (flushStep cfg st).1.queue = [] := by
  rw [flushStep_batch, flushStep_queue, hc, spliceBatch_some]
  exact ⟨List.take_of_length_le hle, List.drop_eq_nil_of_le hle⟩

/-- One queue operation keeps the buffer strictly below the threshold, emits
only batches of size at most `N`, and conserves entries in FIFO order. -/
lemma stepOp_props {β : Type} (cfg : QueueCfg) (N : Nat)
    (hc : cfg.maxItems = some N) (st : QueueState β)
    (hst : st.queue.length < N) (op : QOp β) :
    (stepOp cfg st op).1.queue.length < N ∧
    (∀ b ∈ (stepOp cfg st op).2, b.length ≤ N) ∧
    ((stepOp cfg st op).2).flatten ++ (stepOp cfg st op).1.queue =
      st.queue ++ addsOf [op] := by
  have hN : 0 < N := Nat.lt_of_le_of_lt (Nat.zero_le _) hst
  cases op with
  | add x =>
      rw [stepOp_add, addStep_eq, addTrigger_some cfg N hc]
      simp only [decide_eq_true_eq]
      by_cases htrig : N ≤ st.queue.length + 1
      · rw [if_pos htrig]
        have hle : ((⟨st.queue ++ [x], armOnAdd cfg st⟩ :
            QueueState β)).queue.length ≤ N := by
          simp only [List.length_append, List.length_cons, List.length_nil]
          omega
        have hfl := flushAll_of_le cfg N hc _ hle
        refine ⟨?_, ?_, ?_⟩
        · rw [hfl.2]
          simpa using hN
        · intro b hb
          simp only [List.mem_singleton] at hb
          rw [hb, hfl.1]
          exact hle
        · rw [hfl.2]
          simp only [List.flatten, List.append_nil]
          rw [hfl.1]
          simp [addsOf]
      · rw [if_neg htrig]
        refine ⟨?_, by simp, by simp [addsOf]⟩
        simp only [List.length_append, List.length_cons, List.length_nil]
        omega
  | timerFire =>
      by_cases hz : st.timerCount = 0
      · rw [stepOp_timerFire_zero cfg st hz]
        simpa [addsOf] using hst
      · rw [stepOp_timerFire_armed cfg st hz]
        have hfl := flushAll_of_le cfg N hc st (Nat.le_of_lt hst)
        refine ⟨?_, ?_, ?_⟩
        · rw [hfl.2]
          simpa using hN
        · intro b hb
          simp only [List.mem_singleton] at hb
          rw [hb, hfl.1]
          exact Nat.le_of_lt hst
        · rw [hfl.2]
          simp only [List.flatten, List.append_nil]
          rw [hfl.1]
          simp [addsOf]
  | manualFlush =>
      rw [stepOp_manualFlush]
      have hfl := flushAll_of_le cfg N hc st (Nat.le_of_lt hst)
      refine ⟨?_, ?_, ?_⟩
      · rw [hfl.2]
        simpa using hN
      · intro b hb
        simp only [List.mem_singleton] at hb
        rw [hb, hfl.1]
        exact Nat.le_of_lt hst
      · rw [hfl.2]
        simp only [List.flatten, List.append_nil]
        rw [hfl.1]
        simp [addsOf]

/-- The run-level batching invariant: strictly bounded buffer, bounded
batches, and conservation of entries in FIFO order. -/
lemma runOps_props {β : Type} (cfg : QueueCfg) (N : Nat)
    (hc : cfg.maxItems = some N) :
    ∀ (ops : List (QOp β)) (st : QueueState β), st.queue.length < N →
      (runOps cfg st ops).1.queue.length < N ∧
      (∀ b ∈ (runOps cfg st ops).2, b.length ≤ N) ∧
      ((runOps cfg st ops).2).flatten ++ (runOps cfg st ops).1.queue =
        st.queue ++ addsOf ops := by
  intro ops
  induction ops with
  | nil =>
      intro st hst
      exact ⟨hst, by simp [runOps], by simp [runOps, addsOf]⟩
  | cons op t ih =>
      intro st hst
      have hstep := stepOp_props cfg N hc st hst op
      have hrec := ih (stepOp cfg st op).1 hstep.1
      show (runOps cfg st (op :: t)).1.queue.length < N ∧ _ ∧ _
      unfold runOps
      refine ⟨hrec.1, ?_, ?_⟩
      · intro b hb
        simp only [List.mem_append] at hb
        cases hb with
        | inl hb => exact hstep.2.1 b hb
        | inr hb => exact hrec.2.1 b hb
      · have haddsOf : addsOf (op :: t) = addsOf [op] ++ addsOf t := by
          cases op <;> simp [addsOf]
        rw [List.flatten_append, List.append_assoc, hrec.2.2, haddsOf,
          ← List.append_assoc, hstep.2.2, List.append_assoc]

/-! Claim C3. -/

/-- C3: `flush` extracts exactly the first `min(maxItems, length)` entries of
the buffer (all of them when `maxItems` is unset), leaves the remainder in
order, and hands the batch over in FIFO order — payload components only when
per-item tracking is on; consequently a queue driven from empty with
`maxItems = N` emits only batches of size at most `N` whose concatenation, in
flush order, is the sequence of adds (exactly the sequence of adds once the
tail is drained by a final flush). -/
theorem flush_fifo_batching :
    (∀ (β : Type) (cfg : QueueCfg) (st : QueueState β) (k : Nat),
      cfg.maxItems = some k →
        (flushStep cfg st).2.1 = st.queue.take k ∧
        (flushStep cfg st).1.queue = st.queue.drop k ∧
        (flushStep cfg st).2.1 ++ (flushStep cfg st).1.queue = st.queue ∧
        ((flushStep cfg st).2.1).length = min k st.queue.length) ∧
    (∀ (β : Type) (cfg : QueueCfg) (st : QueueState β),
      cfg.maxItems = none →
        (flushStep cfg st).2.1 = st.queue ∧ (flushStep cfg st).1.queue = []) ∧
    (∀ (α ω : Type) (pairs : List (α × PendingResult (FlushErr ω))),
      flushItems true pairs = BatchItems.payloads (pairs.map Prod.fst) ∧
      flushItems false pairs = BatchItems.rawPairs pairs) ∧
    (∀ (β : Type) (cfg : QueueCfg) (N : Nat) (ops : List (QOp β)),
      cfg.maxItems = some N → 0 < N →
        (∀ b ∈ (runOps cfg ⟨[], 0⟩ ops).2, b.length ≤ N) ∧
        ((runOps cfg ⟨[], 0⟩ ops).2).flatten ++
            (runOps cfg ⟨[], 0⟩ ops).1.queue = addsOf ops ∧
        ((runOps cfg ⟨[], 0⟩ (ops ++ [QOp.manualFlush])).2).flatten =
          addsOf ops) := by
  refine ⟨?_, ?_, ?_, ?_⟩
  · intro β cfg st k hk
    rw [flushStep_batch, flushStep_queue, hk, spliceBatch_some]
    exact ⟨rfl, rfl, List.take_append_drop k st.queue, List.length_take k st.queue⟩
  · intro β cfg st hk
    rw [flushStep_batch, flushStep_queue, hk]
    exact ⟨rfl, rfl⟩
  · intro α ω pairs
    exact ⟨rfl, rfl⟩
  · intro β cfg N ops hc hN
    have hprops := runOps_props cfg N hc ops ⟨[], 0⟩ (by simpa using hN)
    refine ⟨hprops.2.1, by simpa using hprops.2.2, ?_⟩
    rw [runOps_append]
    have hlast := stepOp_props cfg N hc (runOps cfg ⟨[], 0⟩ ops).1 hprops.1
      QOp.manualFlush
    have hone : runOps cfg (runOps cfg ⟨[], 0⟩ ops).1 [QOp.manualFlush] =
        ((stepOp cfg (runOps cfg ⟨[], 0⟩ ops).1 QOp.manualFlush).1,
          (stepOp cfg (runOps cfg ⟨[], 0⟩ ops).1 QOp.manualFlush).2 ++ []) := by
      simp [runOps]
    have hq : (stepOp cfg (runOps cfg ⟨[], 0⟩ ops).1 QOp.manualFlush).1.queue =
        [] := by
      rw [stepOp_manualFlush]
      exact (flushAll_of_le cfg N hc _ (Nat.le_of_lt hprops.1)).2
    have h2 := hlast.2.2
    rw [hq, List.append_nil] at h2
    simp only [hone, List.append_nil]
    rw [List.flatten_append, h2]
    have h3 := hprops.2.2
    simpa [show addsOf [QOp.manualFlush] = ([] : List β) from rfl] using h3

/-- Witness for C3: `maxItems = 2`, three adds and a draining flush; the
batches are `[1, 2]` then `[3]`. -/
theorem flush_fifo_batching_witness :
    ((flushStep (⟨some 2, none, false⟩ : QueueCfg)
        (⟨[(1 : Nat), 2, 3], 0⟩ : QueueState Nat)).2.1 = [1, 2]) ∧
    (∀ b ∈ (runOps (⟨some 2, none, false⟩ : QueueCfg) (⟨[], 0⟩ : QueueState Nat)
        [QOp.add 1, QOp.add 2, QOp.add 3]).2, b.length ≤ 2) ∧
    ((runOps (⟨some 2, none, false⟩ : QueueCfg) (⟨[], 0⟩ : QueueState Nat)
        [QOp.add 1, QOp.add 2, QOp.add 3, QOp.manualFlush]).2).flatten =
      [1, 2, 3] := by
  refine ⟨?_, ?_, ?_⟩
  · exact ((flush_fifo_batching.1 Nat ⟨some 2, none, false⟩ ⟨[1, 2, 3], 0⟩ 2
      rfl).1).trans (by decide)
  · exact (flush_fifo_batching.2.2.2 Nat ⟨some 2, none, false⟩ 2
      [QOp.add 1, QOp.add 2, QOp.add 3] rfl (by decide)).1
  · exact (flush_fifo_batching.2.2.2 Nat ⟨some 2, none, false⟩ 2
      [QOp.add 1, QOp.add 2, QOp.add 3] rfl (by decide)).2.2

/-! Claim C4. -/

/-- Arming on enqueue never exceeds one armed timer. -/
lemma armOnAdd_le_one {β : Type} (cfg : QueueCfg) (st : QueueState β)
    (hst : st.timerCount ≤ 1) : armOnAdd cfg st ≤ 1 := by
  unfold armOnAdd
  by_cases h : (cfg.maxTime.isSome && st.timerCount == 0 && st.queue.isEmpty) = true
  · rw [if_pos h]
    simp only [Bool.and_eq_true, beq_iff_eq] at h
    omega
  · rw [if_neg h]
    exact hst

/-- A flush never arms a timer. -/
lemma flushStep_timer_le {β : Type} (cfg : QueueCfg) (st : QueueState β)
    (hst : st.timerCount ≤ 1) : (flushStep cfg st).1.timerCount ≤ 1 := by
  rw [flushStep_timer]
  by_cases h : ((spliceBatch cfg.maxItems st.queue).2).isEmpty = true
  · rw [if_pos h]
    omega
  · rw [if_neg h]
    exact hst

/-- One queue operation preserves the at-most-one-armed-timer bound. -/
lemma stepOp_timer {β : Type} (cfg : QueueCfg) (st : QueueState β)
    (hst : st.timerCount ≤ 1) (op : QOp β) :
    (stepOp cfg st op).1.timerCount ≤ 1 := by
  cases op with
  | add x =>
      rw [stepOp_add, addStep_eq]
      by_cases h : addTrigger cfg (st.queue.length + 1) = true
      · rw [if_pos h]
        exact flushStep_timer_le cfg _ (armOnAdd_le_one cfg st hst)
      · rw [if_neg h]
        exact armOnAdd_le_one cfg st hst
  | timerFire =>
      by_cases hz : st.timerCount = 0
      · rw [stepOp_timerFire_zero cfg st hz]
        exact hst
      · rw [stepOp_timerFire_armed cfg st hz]
        exact flushStep_timer_le cfg st hst
  | manualFlush =>
      rw [stepOp_manualFlush]
      exact flushStep_timer_le cfg st hst

/-- C4: at most one flush timer is armed at any time during any run; a flush
whose extraction empties the buffer clears the timer, and its event trace
shows the clearing happening before the iterator is invoked; a flush that
leaves entries behind emits no clearing event and leaves the timer state
untouched, so the remainder's flush can still fire. -/
theorem flush_timer_discipline :
    (∀ (β : Type) (cfg : QueueCfg) (ops : List (QOp β)) (st : QueueState β),
      st.timerCount ≤ 1 → (runOps cfg st ops).1.timerCount ≤ 1) ∧
    (∀ (β : Type) (cfg : QueueCfg) (st : QueueState β),
      (spliceBatch cfg.maxItems st.queue).2 = [] →
        (flushStep cfg st).2.2 =
          [FlushEvt.clearedFlushInterval,
            FlushEvt.invokedIterator (flushStep cfg st).2.1] ∧
        (flushStep cfg st).1.timerCount = 0) ∧
    (∀ (β : Type) (cfg : QueueCfg) (st : QueueState β),
      (spliceBatch cfg.maxItems st.queue).2 ≠ [] →
        (flushStep cfg st).2.2 =
          [FlushEvt.invokedIterator (flushStep cfg st).2.1] ∧
        (flushStep cfg st).1.timerCount = st.timerCount) := by
  refine ⟨?_, ?_, ?_⟩
  · intro β cfg ops
    induction ops with
    | nil =>
        intro st hst
        simpa [runOps] using hst
    | cons op t ih =>
        intro st hst
        show (runOps cfg st (op :: t)).1.timerCount ≤ 1
        unfold runOps
        exact ih (stepOp cfg st op).1 (stepOp_timer cfg st hst op)
  · intro β cfg st hrest
    have he : ((spliceBatch cfg.maxItems st.queue).2).isEmpty = true := by
      rw [hrest]
      rfl
    rw [flushStep_trace, flushStep_timer, flushStep_batch, if_pos he, if_pos he]
    exact ⟨rfl, rfl⟩
  · intro β cfg st hrest
    have he : ¬((spliceBatch cfg.maxItems st.queue).2).isEmpty = true := by
      cases hsp : (spliceBatch cfg.maxItems st.queue).2 with
      | nil => exact absurd hsp hrest
      | cons a t => simp [hsp]
    rw [flushStep_trace, flushStep_timer, flushStep_batch, if_neg he, if_neg he]
    exact ⟨rfl, rfl⟩

/-- Witness for C4: a run arming the timer keeps at most one armed; a
buffer-draining flush traces clear-then-invoke and zeroes the timer; a capped
flush leaves the timer armed. -/
theorem flush_timer_discipline_witness :
    ((runOps (⟨some 3, some 100, false⟩ : QueueCfg) (⟨[], 0⟩ : QueueState Nat)
        [QOp.add 1, QOp.add 2, QOp.timerFire]).1.timerCount ≤ 1) ∧
    ((flushStep (⟨some 2, some 100, false⟩ : QueueCfg)
        (⟨[(5 : Nat)], 1⟩ : QueueState Nat)).2.2 =
      [FlushEvt.clearedFlushInterval, FlushEvt.invokedIterator [5]] ∧
      (flushStep (⟨some 2, some 100, false⟩ : QueueCfg)
        (⟨[(5 : Nat)], 1⟩ : QueueState Nat)).1.timerCount = 0) ∧
    ((flushStep (⟨some 1, some 100, false⟩ : QueueCfg)
        (⟨[(5 : Nat), 6], 1⟩ : QueueState Nat)).2.2 =
      [FlushEvt.invokedIterator [5]] ∧
      (flushStep (⟨some 1, some 100, false⟩ : QueueCfg)
        (⟨[(5 : Nat), 6], 1⟩ : QueueState Nat)).1.timerCount = 1) := by
  refine ⟨?_, ?_, ?_⟩
  · exact flush_timer_discipline.1 Nat ⟨some 3, some 100, false⟩
      [QOp.add 1, QOp.add 2, QOp.timerFire] ⟨[], 0⟩ (by decide)
  · have h := flush_timer_discipline.2.1 Nat ⟨some 2, some 100, false⟩
      ⟨[(5 : Nat)], 1⟩ (by decide)
    exact ⟨h.1.trans (by decide), h.2⟩
  · have h := flush_timer_discipline.2.2 Nat ⟨some 1, some 100, false⟩
      ⟨[(5 : Nat), 6], 1⟩ (by decide)
    exact ⟨h.1.trans (by decide), h.2⟩

/-! Claim C6. -/

/-- Concrete partial-failure remote error separating the claim from the code:
one failing row whose remote-reported `row` value is `7` (its ordinal position
is `0`) and which carries two reason/message pairs. -/
def c6err : RemoteErr Nat :=
  ⟨PARTIAL_FAILURE_ERROR, "400", some "partial failure",
    [⟨7, [⟨"invalid", "bad"⟩, ⟨"stopped", "extra"⟩]⟩]⟩

/-- Counterexample for C6: on a partial failure whose single failing row is
reported with `row` value `7`, the translator's record carries `7` — the
remote-reported row value — and not the row's zero-based ordinal index `0`
that the claim describes (third and fourth conjuncts: the record and the
extras log the spec's words prescribe); moreover `parseError` emits no log of
the second reason/message pair, which it drops. -/
theorem error_translator_counterexample :
    (parseError c6err).errors = some [⟨7, some "invalid", some "bad"⟩] ∧
    ¬((parseError c6err).errors = some [⟨0, some "invalid", some "bad"⟩]) ∧
    (specTranslatePartial c6err).1 = [⟨0, some "invalid", some "bad"⟩] ∧
    (specTranslatePartial c6err).2 = [⟨"stopped", "extra"⟩] := by
  refine ⟨?_, ?_, ?_, ?_⟩ <;> decide

/-- C6 amended: for a partial-failure remote error, `parseError` produces one
record per failing row, carrying the remote-reported `row` value verbatim
(not the row's ordinal position) and only the first reported reason/message
pair; additional pairs are dropped by the translator without logging — extras
are logged only by the buffered per-item reconciliation path (third
conjunct); for a non-partial-failure remote error it produces a wrapped error
preserving the original code and message (falling back to the error name when
the message is absent) with no per-row breakdown. -/
theorem error_translator_amended {ρ : Type} (err : RemoteErr ρ) :
    (err.name = PARTIAL_FAILURE_ERROR →
      ∃ recs, (parseError err).errors = some recs ∧
        recs.length = err.errors.length ∧
        ∀ (j : Nat) (item : RemoteErrItem ρ), err.errors[j]? = some item →
          recs[j]? =
            some ⟨item.row, (item.errors.head?).map RowError.reason,
              (item.errors.head?).map RowError.message⟩) ∧
    (err.name ≠ PARTIAL_FAILURE_ERROR →
      parseError err = ⟨err.code, err.message.getD err.name, none⟩) ∧
    (∀ (ω : Type) (m : Nat → Option (List RowError)) (i : Nat)
        (pr : PendingResult (FlushErr ω)) (errorArr : List RowError),
      m i = some errorArr → errorArr.length > 1 →
      (reconcileOne m i pr).2 = [QueueEvt.loggedMultipleErrors errorArr]) := by
  refine ⟨?_, ?_, ?_⟩
  · intro hn
    refine ⟨err.errors.map (fun item =>
      ⟨item.row, (item.errors.head?).map RowError.reason,
        (item.errors.head?).map RowError.message⟩), ?_, by simp, ?_⟩
    · unfold parseError
      rw [if_neg (by simp [hn])]
    · intro j item hj
      simp [List.getElem?_map, hj]
  · intro hn
    unfold parseError
    rw [if_pos hn]
  · intro ω m i pr errorArr hm hlen
    unfold reconcileOne
    rw [hm]
    simp [hlen]

/-- Witness for the amended C6: a whole-request failure wraps code and
message, and the buffered per-item path logs a two-pair error list. -/
theorem error_translator_amended_witness :
    parseError (⟨"notFound", "404", some "Not found: Table", []⟩ : RemoteErr Nat) =
      ⟨"404", "Not found: Table", none⟩ ∧
    (reconcileOne (fun _ => some [⟨"invalid", "bad"⟩, ⟨"stopped", "extra"⟩]) 0
        (⟨PrState.pending, false⟩ : PendingResult (FlushErr Nat))).2 =
      [QueueEvt.loggedMultipleErrors [⟨"invalid", "bad"⟩, ⟨"stopped", "extra"⟩]] :=
  ⟨(error_translator_amended
      (⟨"notFound", "404", some "Not found: Table", []⟩ : RemoteErr Nat)).2.1
      (by decide),
    (error_translator_amended (⟨"x", "0", none, []⟩ : RemoteErr Nat)).2.2 Nat
      (fun _ => some [⟨"invalid", "bad"⟩, ⟨"stopped", "extra"⟩]) 0
      ⟨PrState.pending, false⟩ [⟨"invalid", "bad"⟩, ⟨"stopped", "extra"⟩] rfl
      (by decide)⟩

/-! Claim C9. -/

/-- Reading the first field of a cons when the key matches. -/
lemma getField_cons_self {π : Type} (f : String × JVal π) (t : JsObj π)
    (k : String) (h : f.1 = k) : getField (f :: t) k = f.2 := by
  unfold getField
  rw [List.find?_cons_of_pos _ (by simp [h])]

/-- Reading past the first field of a cons when the key differs. -/
lemma getField_cons_ne {π : Type} (f : String × JVal π) (t : JsObj π)
    (k : String) (h : f.1 ≠ k) : getField (f :: t) k = getField t k := by
  unfold getField
  rw [List.find?_cons_of_neg _ (by simp [h])]

/-- Deletion removes a matching head. -/
lemma deleteField_cons_self {π : Type} (f : String × JVal π) (t : JsObj π)
    (k : String) (h : f.1 = k) : deleteField (f :: t) k = deleteField t k := by
  simp [deleteField, List.filter_cons, h]

/-- Deletion keeps a non-matching head. -/
lemma deleteField_cons_ne {π : Type} (f : String × JVal π) (t : JsObj π)
    (k : String) (h : f.1 ≠ k) :
    deleteField (f :: t) k = f :: deleteField t k := by
  simp [deleteField, List.filter_cons, h]

/-- After deletion the deleted key reads as `undefined`. -/
lemma getField_deleteField_self {π : Type} (o : JsObj π) (k : String) :
    getField (deleteField o k) k = JVal.vundef := by
  induction o with
  | nil => rfl
  | cons f t ih =>
      by_cases hf : f.1 = k
      · rw [deleteField_cons_self f t k hf]
        exact ih
      · rw [deleteField_cons_ne f t k hf, getField_cons_ne f _ k hf]
        exact ih

/-- Deletion leaves every other key's value unchanged. -/
lemma getField_deleteField_ne {π : Type} (o : JsObj π) (k key : String)
    (hk : k ≠ key) : getField (deleteField o key) k = getField o k := by
  induction o with
  | nil => rfl
  | cons f t ih =>
      by_cases hf : f.1 = key
      · have hfk : f.1 ≠ k := fun h => hk (h.symm.trans hf)
        rw [deleteField_cons_self f t key hf, ih, getField_cons_ne f t k hfk]
      · rw [deleteField_cons_ne f t key hf]
        by_cases hfk : f.1 = k
        · rw [getField_cons_self f _ k hfk, getField_cons_self f t k hfk]
        · rw [getField_cons_ne f _ k hfk, getField_cons_ne f t k hfk, ih]

/-- Allocation does not disturb existing objects. -/
lemma objAt_alloc_old {π : Type} (h : Heap π) (o : JsObj π) (a : Nat)
    (ha : a < h.objs.length) : ((h.alloc o).1).objAt a = h.objAt a := by
  show ((h.objs ++ [o])[a]?).getD [] = (h.objs[a]?).getD []
  rw [List.getElem?_append_left ha]

/-- The freshly allocated address holds the new contents. -/
lemma objAt_alloc_new {π : Type} (h : Heap π) (o : JsObj π) :
    ((h.alloc o).1).objAt h.objs.length = o := by
  show ((h.objs ++ [o])[h.objs.length]?).getD [] = o
  rw [List.getElem?_concat_length]
  rfl

/-- Writing one address does not disturb the others. -/
lemma objAt_write_ne {π : Type} (h : Heap π) (i : Nat) (o : JsObj π) (a : Nat)
    (hne : i ≠ a) : (h.write i o).objAt a = h.objAt a := by
  show (((h.objs.set i o))[a]?).getD [] = (h.objs[a]?).getD []
  rw [List.getElem?_set_ne hne]

/-- Writing a valid address stores the new contents. -/
lemma objAt_write_self {π : Type} (h : Heap π) (i : Nat) (o : JsObj π)
    (hi : i < h.objs.length) : (h.write i o).objAt i = o := by
  show (((h.objs.set i o))[i]?).getD [] = o
  rw [List.getElem?_set_self hi]
  rfl

/-- C9: enveloping a row never mutates the caller's object: every object that
existed before the call — the caller's row included — is unchanged afterwards;
the envelope's `json` points at a freshly allocated copy; when the caller
supplied a non-nullish `_insertId` the envelope carries exactly that id and
the `_insertId` key is removed only from the copy, every other field of which
matches the caller's row; otherwise the envelope carries the freshly generated
id and the copy equals the caller's row. -/
theorem getRawRow_never_mutates_caller {π : Type} (h : Heap π) (rowAddr : Nat)
    (genId : String) (hvalid : rowAddr < h.objs.length) :
    ((getRawRow h rowAddr genId).1.objAt rowAddr = h.objAt rowAddr) ∧
    (∀ a, a < h.objs.length →
      (getRawRow h rowAddr genId).1.objAt a = h.objAt a) ∧
    ((getRawRow h rowAddr genId).2.json = h.objs.length) ∧
    (notNullish (getField (h.objAt rowAddr) INSERT_ID_KEY) = true →
      (getRawRow h rowAddr genId).2.insertId =
        getField (h.objAt rowAddr) INSERT_ID_KEY ∧
      getField
          ((getRawRow h rowAddr genId).1.objAt
            ((getRawRow h rowAddr genId).2.json)) INSERT_ID_KEY =
        JVal.vundef ∧
      (∀ k, k ≠ INSERT_ID_KEY →
        getField
            ((getRawRow h rowAddr genId).1.objAt
              ((getRawRow h rowAddr genId).2.json)) k =
          getField (h.objAt rowAddr) k)) ∧
    (notNullish (getField (h.objAt rowAddr) INSERT_ID_KEY) = false →
      (getRawRow h rowAddr genId).2.insertId = JVal.str genId ∧
      (getRawRow h rowAddr genId).1.objAt ((getRawRow h rowAddr genId).2.json) =
        h.objAt rowAddr) := by
  by_cases hnn : notNullish (getField (h.objAt rowAddr) INSERT_ID_KEY) = true
  · have hres : getRawRow h rowAddr genId =
        (((h.alloc (h.objAt rowAddr)).1).write h.objs.length
            (deleteField (h.objAt rowAddr) INSERT_ID_KEY),
          ⟨getField (h.objAt rowAddr) INSERT_ID_KEY, h.objs.length⟩) := by
      unfold getRawRow Heap.alloc
      rw [if_pos hnn]
    have hwrite_old : ∀ a, a < h.objs.length →
        (getRawRow h rowAddr genId).1.objAt a = h.objAt a := by
      intro a ha
      rw [hres]
      have hne : h.objs.length ≠ a := fun hE => absurd (hE ▸ ha) (Nat.lt_irrefl _)
      rw [objAt_write_ne _ _ _ _ hne, objAt_alloc_old h _ a ha]
    have hcopy : (getRawRow h rowAddr genId).1.objAt h.objs.length =
        deleteField (h.objAt rowAddr) INSERT_ID_KEY := by
      rw [hres]
      exact objAt_write_self _ _ _ (by simp [Heap.alloc])
    refine ⟨hwrite_old rowAddr hvalid, hwrite_old, by rw [hres], ?_, ?_⟩
    · intro _
      refine ⟨by rw [hres], ?_, ?_⟩
      · have hjson : (getRawRow h rowAddr genId).2.json = h.objs.length := by
          rw [hres]
        rw [hjson, hcopy]
        exact getField_deleteField_self _ _
      · intro k hkne
        have hjson : (getRawRow h rowAddr genId).2.json = h.objs.length := by
          rw [hres]
        rw [hjson, hcopy]
        exact getField_deleteField_ne _ _ _ hkne
    · intro hcontra
      rw [hnn] at hcontra
      exact absurd hcontra (by simp)
  · have hnn' : notNullish (getField (h.objAt rowAddr) INSERT_ID_KEY) = false :=
      Bool.eq_false_iff.mpr hnn
    have hres : getRawRow h rowAddr genId =
        ((h.alloc (h.objAt rowAddr)).1,
          ⟨JVal.str genId, h.objs.length⟩) := by
      unfold getRawRow Heap.alloc
      rw [if_neg hnn]
    have hold : ∀ a, a < h.objs.length →
        (getRawRow h rowAddr genId).1.objAt a = h.objAt a := by
      intro a ha
      rw [hres]
      exact objAt_alloc_old h _ a ha
    refine ⟨hold rowAddr hvalid, hold, by rw [hres], ?_, ?_⟩
    · intro hcontra
      rw [hnn'] at hcontra
      exact absurd hcontra (by simp)
    · intro _
      refine ⟨by rw [hres], ?_⟩
      have hjson : (getRawRow h rowAddr genId).2.json = h.objs.length := by
        rw [hres]
      rw [hjson, hres]
      exact objAt_alloc_new h _

/-- Witness for C9: a one-object heap whose row carries `_insertId`; the
caller's object is untouched, the envelope reuses the supplied id, and the
copy has the key removed while keeping the payload field. -/
theorem getRawRow_never_mutates_caller_witness :
    ((getRawRow
        (⟨[[(("value" : String), JVal.payload (1 : Nat)),
          ("_insertId", JVal.str "123456789")]]⟩ : Heap Nat) 0 "fresh-id").1.objAt
        0 =
      [(("value" : String), JVal.payload (1 : Nat)),
        ("_insertId", JVal.str "123456789")]) ∧
    ((getRawRow
        (⟨[[(("value" : String), JVal.payload (1 : Nat)),
          ("_insertId", JVal.str "123456789")]]⟩ : Heap Nat) 0 "fresh-id").2.insertId =
      JVal.str "123456789") ∧
    (getField
        ((getRawRow
          (⟨[[(("value" : String), JVal.payload (1 : Nat)),
            ("_insertId", JVal.str "123456789")]]⟩ : Heap Nat) 0 "fresh-id").1.objAt
          1) "_insertId" =
      JVal.vundef) ∧
    (getField
        ((getRawRow
          (⟨[[(("value" : String), JVal.payload (1 : Nat)),
            ("_insertId", JVal.str "123456789")]]⟩ : Heap Nat) 0 "fresh-id").1.objAt
          1) "value" =
      JVal.payload 1) := by
  have T := getRawRow_never_mutates_caller
    (⟨[[(("value" : String), JVal.payload (1 : Nat)),
      ("_insertId", JVal.str "123456789")]]⟩ : Heap Nat) 0 "fresh-id"
    (by decide)
  have hid := T.2.2.2.1 (by decide)
  refine ⟨(T.1).trans (by decide), (hid.1).trans (by decide), ?_, ?_⟩
  · have h2 := hid.2.1
    simpa using h2
  · have h3 := hid.2.2 "value" (by decide)
    exact h3.trans (by decide)

end SqBigQuery



